import Mathlib

/-!
Verification of the MQTT speech-integration core of aituber-kit.

Shallow embedding of:
  src/features/mqtt/subscribers/MqttSubscriber.ts   (message decode, payload
    validation, reconnect scheduling, connection-status setter)
  src/features/mqtt/MqttBrokerIntegration.ts (receive path, handleReceivedMessage)
  src/features/mqtt/handlers/SpeechHandler.ts       (dispatch, sanitization,
    truncation, priority handling)
  src/features/mqtt/utils/mqttClientIdGenerator.ts  (client-id generation,
    canonical-format check, legacy migration)
  src/features/mqtt/utils/errorHandler.ts           (diagnoseMqttConfig)

JavaScript strings are modelled as `List Char` where character-level operations
matter and as `String` elsewhere; machine integers in play (ports, delays)
fit well inside 2^53 so plain `Nat`/`Int` are exact.
-/

/- ### JSON values, as produced by JSON.parse

The payload validator and the broker decode path only ever inspect the
top-level `typeof` of the parsed document and the `typeof` of its immediate
properties; they never recurse into nested values.  The embedding therefore
uses a two-level model: `JLeaf` is a property value with nested structure
erased (only its `typeof` class kept), `JValue` is the parsed document. -/

inductive JLeaf where
  | jnull : JLeaf
  | jbool (b : Bool) : JLeaf
  | jnum (n : Int) : JLeaf
  | jstr (s : String) : JLeaf
  | jobj : JLeaf
  | jarr : JLeaf
deriving DecidableEq

inductive JValue where
  | jnull : JValue
  | jbool (b : Bool) : JValue
  | jnum (n : Int) : JValue
  | jstr (s : String) : JValue
  | jarr : JValue
  | jobj (fields : List (String × JLeaf)) : JValue
deriving DecidableEq

/-- Property lookup on a parsed object (JSON.parse collapses duplicate keys,
so association lists here have distinct keys). -/
def lookupField (k : String) : List (String × JLeaf) → Option JLeaf
  | [] => none
  | (k', v) :: rest => if k' = k then some v else lookupField k rest

/-- Property access `v.k` in JS: objects look the key up, every other
non-null value yields `undefined` (modelled as an empty field list). -/
def jfields : JValue → List (String × JLeaf)
  | .jobj fs => fs
  | _ => []

/-- JS truthiness of a property value (`null`, `false`, `0`, `''` are falsy). -/
def jsTruthyLeaf : JLeaf → Bool
  | .jnull => false
  | .jbool b => b
  | .jnum n => n ≠ 0
  | .jstr s => s ≠ ""
  | .jobj => true
  | .jarr => true

/-- JS `a || d` on an optional property value (`undefined` is falsy). -/
def jsOrLeaf (v : Option JLeaf) (d : JLeaf) : JLeaf :=
  match v with
  | some x => if jsTruthyLeaf x then x else d
  | none => d

/- ### MqttSubscriber.validateSpeechPayload (MqttSubscriber.ts:343-352)

    typeof payload === 'object' &&
    typeof payload.id === 'string' &&
    typeof payload.text === 'string' &&
    ['speech', 'alert', 'notification'].includes(payload.type) &&
    ['high', 'medium', 'low'].includes(payload.priority) &&
    typeof payload.timestamp === 'string'

`typeof null === 'object'` in JS, so a null payload passes the first
conjunct and then throws on `payload.id`; the result `none` models that
thrown TypeError (caught by handleMessage's outer catch). -/

def typeofIsObject : JValue → Bool
  | .jnull => true
  | .jarr => true
  | .jobj _ => true
  | _ => false

def leafIsString : Option JLeaf → Bool
  | some (.jstr _) => true
  | _ => false

/-- `[...].includes(x)`: strict equality, so only a string can match. -/
def leafIn (vals : List String) : Option JLeaf → Bool
  | some (.jstr s) => vals.contains s
  | _ => false

def validateSpeechPayload (payload : JValue) : Option Bool :=
  match payload with
  | .jnull => none
  | v => some (typeofIsObject v
      && leafIsString (lookupField "id" (jfields v))
      && leafIsString (lookupField "text" (jfields v))
      && leafIn ["speech", "alert", "notification"] (lookupField "type" (jfields v))
      && leafIn ["high", "medium", "low"] (lookupField "priority" (jfields v))
      && leafIsString (lookupField "timestamp" (jfields v)))

/- ### MqttSubscriber.handleMessage (MqttSubscriber.ts:302-338), decode part

The `Option JValue` argument is the outcome of `JSON.parse(messageStr)`:
`none` when the parse threw.  A parse failure emits an error and returns
(no dispatch); an invalid payload likewise; only a validated payload is
passed on via the messageReceived event. -/
def handleMessage (parsed : Option JValue) : Option JValue :=
  match parsed with
  | none => none
  | some v =>
    match validateSpeechPayload v with
    | some true => some v
    | _ => none

/- ### MqttBrokerIntegration.handleReceivedMessage, decode part

    try { parsedMessage = JSON.parse(messageStr) }
    catch { /- "not valid JSON, skipping speech processing" -/ return }
    const speechPayload = {
      id: parsedMessage.id || `mqtt-${Date.now()}`,
      text: parsedMessage.text || messageStr,
      type: parsedMessage.type || 'speech',
      emotion: parsedMessage.emotion || undefined,
      priority: parsedMessage.priority || 'medium',
      timestamp: parsedMessage.timestamp || new Date().toISOString(),
    }

`genId`/`now` stand for the ambient `mqtt-${Date.now()}` and
`new Date().toISOString()`.  A parsed document equal to JSON null throws on
the first property access; the enclosing catch logs and drops the message. -/

structure BrokerSpeechPayload where
  id : JLeaf
  text : JLeaf
  type : JLeaf
  emotion : Option JLeaf
  priority : JLeaf
  timestamp : JLeaf
deriving DecidableEq

def mqttBrokerDecode (raw genId now : String) : Option JValue → Option BrokerSpeechPayload
  | none => none
  | some .jnull => none
  | some v =>
    let fs := jfields v
    some
      { id := jsOrLeaf (lookupField "id" fs) (.jstr genId)
        text := jsOrLeaf (lookupField "text" fs) (.jstr raw)
        type := jsOrLeaf (lookupField "type" fs) (.jstr "speech")
        emotion :=
          match lookupField "emotion" fs with
          | some e => if jsTruthyLeaf e then some e else none
          | none => none
        priority := jsOrLeaf (lookupField "priority" fs) (.jstr "medium")
        timestamp := jsOrLeaf (lookupField "timestamp" fs) (.jstr now) }

/- ### Text sanitization (SpeechHandler.ts:264-318) -/

/-- The character class of JS regex `\s` (also the set String.prototype.trim
removes). -/
def jsIsSpace (c : Char) : Bool :=
  let n := c.toNat
  n = 9 || n = 10 || n = 11 || n = 12 || n = 13 || n = 32 ||
  n = 0xa0 || n = 0x1680 || (0x2000 ≤ n && n ≤ 0x200a) ||
  n = 0x2028 || n = 0x2029 || n = 0x202f || n = 0x205f || n = 0x3000 || n = 0xfeff

/-- `text.trim()`. -/
def jsTrim (l : List Char) : List Char :=
  ((l.dropWhile jsIsSpace).reverse.dropWhile jsIsSpace).reverse

/-- The class stripped by `replace(/[\x00-\x1F\x7F-\x9F]/g, '')`. -/
def isStrippedCtrl (c : Char) : Bool :=
  c.toNat ≤ 0x1F || (0x7F ≤ c.toNat && c.toNat ≤ 0x9F)

/-- `replace(/\s+/g, ' ')`: each maximal whitespace run becomes one space.
The Bool argument tracks whether we are inside a run already replaced. -/
def collapseWsAux : Bool → List Char → List Char
  | _, [] => []
  | inRun, c :: rest =>
    if jsIsSpace c then
      if inRun then collapseWsAux true rest
      else ' ' :: collapseWsAux true rest
    else c :: collapseWsAux false rest

def collapseWs (l : List Char) : List Char := collapseWsAux false l

/-- `const breakPoints = ['。', '！', '？', '、', '，', ' ', '　']` -/
def breakPoints : List Char := ['。', '！', '？', '、', '，', ' ', '　']

/-- `breakPoints.includes(text[i])`; out-of-range access gives `undefined`,
which is not in the list. -/
def isBreakAt (text : List Char) (i : Nat) : Bool :=
  match text[i]? with
  | some c => breakPoints.contains c
  | none => false

/-- The backward search `for (let i = maxLength-1; i >= maxLength*0.7; i--)`,
searching indices i, i-1, ..., lo for a break point.  (`lo` is the integer
lower bound of the loop: for the only call site maxLength = 200 the float
bound `maxLength * 0.7` is exactly 140.) -/
def findBreakFrom (text : List Char) (lo : Nat) : Nat → Option Nat
  | 0 => if 0 < lo then none else if isBreakAt text 0 then some 0 else none
  | i + 1 =>
    if i + 1 < lo then none
    else if isBreakAt text (i + 1) then some (i + 1)
    else findBreakFrom text lo i

/-- SpeechHandler.truncateTextGracefully (SpeechHandler.ts:304-318).
`(7 * maxLength + 9) / 10` is the least integer i with i ≥ maxLength * 0.7;
at the only call site (maxLength = 200) this is exactly 140. -/
def truncateTextGracefully (text : List Char) (maxLength : Nat) : List Char :=
  if text.length ≤ maxLength then text
  else
    match findBreakFrom text ((7 * maxLength + 9) / 10) (maxLength - 1) with
    | some i => text.take (i + 1)
    | none => text.take (maxLength - 3) ++ ['.', '.', '.']

/-- Fallback returned when `encodeURIComponent(sanitized)` throws. -/
def ttsFallback : List Char := "メッセージを処理できませんでした".toList

/-- SpeechHandler.sanitizeTextForTTS (SpeechHandler.ts:264-299).
`encodeFails` models whether `encodeURIComponent(sanitized)` throws (it does
only for lone UTF-16 surrogates, which `Char` cannot represent, so the flag
is threaded as an oracle). -/
def sanitizeTextForTTS (text : List Char) (encodeFails : Bool) : List Char :=
  if text = [] then []
  else
    let s1 := jsTrim text
    let s2 := s1.filter (fun c => !isStrippedCtrl c)
    let s3 := collapseWs s2
    let s4 := if 200 < s3.length then truncateTextGracefully s3 200 else s3
    if encodeFails then ttsFallback else s4

/- ### Reconnect scheduling (MqttSubscriber.ts:367-386)

    this.reconnectAttempts++
    const delay = Math.min(
      this.reconnectDelay * Math.pow(2, this.reconnectAttempts - 1),
      this.maxReconnectDelay)

Returns the incremented attempt counter and the computed delay. -/
def scheduleReconnect (reconnectDelay maxReconnectDelay attempts : Nat) : Nat × Nat :=
  let attempts1 := attempts + 1
  (attempts1, min (reconnectDelay * 2 ^ (attempts1 - 1)) maxReconnectDelay)

/-- Delay of the n-th scheduled reconnection attempt (n = 1, 2, ...), the
counter having been reset to 0 by the last successful connect. -/
def nthReconnectDelay (reconnectDelay maxReconnectDelay n : Nat) : Nat :=
  (scheduleReconnect reconnectDelay maxReconnectDelay (n - 1)).2

/- ### Client-id generation and migration (mqttClientIdGenerator.ts) -/

/-- One character of the regex classes used by the two client-id patterns. -/
def isHexLower (c : Char) : Bool :=
  ('0' ≤ c && c ≤ '9') || ('a' ≤ c && c ≤ 'f')

def isDigitC (c : Char) : Bool := '0' ≤ c && c ≤ '9'

/-- `[89ab]`, the UUID v4 variant nibble. -/
def isVariantC (c : Char) : Bool := c = '8' || c = '9' || c = 'a' || c = 'b'

/-- Regex `.` without the `s` flag: any char except a line terminator. -/
def isRegexDot (c : Char) : Bool :=
  !(c.toNat = 10 || c.toNat = 13 || c.toNat = 0x2028 || c.toNat = 0x2029)

/-- Consume an exact literal from the front. -/
def eatLit : List Char → List Char → Option (List Char)
  | [], l => some l
  | _ :: _, [] => none
  | c :: cs, x :: xs => if x = c then eatLit cs xs else none

/-- Consume exactly n characters of class p from the front (a fixed-count
regex quantifier such as `[0-9a-f]{8}` — no backtracking is possible). -/
def eatCount (p : Char → Bool) : Nat → List Char → Option (List Char)
  | 0, l => some l
  | _ + 1, [] => none
  | n + 1, x :: xs => if p x then eatCount p n xs else none

/-- The string literal `aituber-` as characters. -/
def aituberPre : List Char := ['a', 'i', 't', 'u', 'b', 'e', 'r', '-']

/-- The UUID part of both patterns:
`[0-9a-f]{8}-[0-9a-f]{4}-4[0-9a-f]{3}-[89ab][0-9a-f]{3}-[0-9a-f]{12}`. -/
def matchUuidTail (l : List Char) : Option (List Char) :=
  (eatCount isHexLower 8 l).bind fun l1 =>
  (eatLit ['-'] l1).bind fun l2 =>
  (eatCount isHexLower 4 l2).bind fun l3 =>
  (eatLit ['-', '4'] l3).bind fun l4 =>
  (eatCount isHexLower 3 l4).bind fun l5 =>
  (eatLit ['-'] l5).bind fun l6 =>
  (eatCount isVariantC 1 l6).bind fun l7 =>
  (eatCount isHexLower 3 l7).bind fun l8 =>
  (eatLit ['-'] l8).bind fun l9 =>
  eatCount isHexLower 12 l9

/-- The shared prefix of both patterns: `^aituber-<uuid>-\d{13}`. -/
def matchCore (l : List Char) : Option (List Char) :=
  (eatLit aituberPre l).bind fun l1 =>
  (matchUuidTail l1).bind fun l2 =>
  (eatLit ['-'] l2).bind fun l3 =>
  eatCount isDigitC 13 l3

/- isAituberClientId (mqttClientIdGenerator.ts:33-50):
  `basicAituberPattern.test(id) || legacyConvertedPattern.test(id)` where
  basic ends `$` and legacy ends `-.+$`.  Both patterns are deterministic
  (fixed-count quantifiers), so they are decided by matching the shared
  prefix and then inspecting the remainder: empty for basic, `-` followed
  by one or more non-line-terminator characters for legacy. -/
def isAituberClientId (l : List Char) : Bool :=
  if l = [] then false
  else
    match matchCore l with
    | none => false
    | some [] => true
    | some ('-' :: suffix) => decide (suffix ≠ []) && suffix.all isRegexDot
    | some _ => false

/-- generateAituberClientId (mqttClientIdGenerator.ts:21-25):
`` `aituber-${uuid}-${timestamp}` `` with `uuid`/`ts` the ambient
`uuidv4()` and `Date.now()` results passed explicitly. -/
def generateAituberClientId (uuid ts : List Char) : List Char :=
  aituberPre ++ uuid ++ '-' :: ts

/-- convertLegacyClientId (mqttClientIdGenerator.ts:83-100). -/
def convertLegacyClientId (uuid ts legacy : List Char) : List Char :=
  if isAituberClientId legacy then legacy
  else if legacy = [] then generateAituberClientId uuid ts
  else aituberPre ++ uuid ++ '-' :: (ts ++ '-' :: legacy)

/-- A valid uuidv4() result, phrased as: the uuid segment matcher consumes it
entirely. -/
abbrev uuidOk (uuid : List Char) : Prop := matchUuidTail uuid = some []

/-- A valid `Date.now()` rendering: exactly 13 decimal digits. -/
abbrev tsOk (ts : List Char) : Prop := eatCount isDigitC 13 ts = some []

/- ### Speech dispatch (SpeechHandler.ts) -/

structure Talk where
  emotion : String
  message : List Char
deriving DecidableEq

/-- The typed SpeechPayload reaching the dispatcher (speaker/metadata are
never read by SpeechHandler and are omitted). -/
structure SpeechPayloadT where
  id : String
  text : List Char
  type : String
  priority : String
  emotion : Option String
deriving DecidableEq

structure MqttMessageHandleResult where
  success : Bool
  error : Option String
  messageId : Option String
deriving DecidableEq

/-- One invocation on the speech sink. -/
inductive SinkEvent where
  | stopAll : SinkEvent
  | speak (sessionId : String) (message : List Char) (emotion : String) : SinkEvent
deriving DecidableEq

/-- Ambient collaborators of SpeechHandler: the store's send mode, whether
SpeakQueue.stopAll / speakCharacter throw when invoked, the AI chat
collaborator (generateAiResponse catches internally and returns null on any
failure, hence `Option String`), generateMessageId(), Date.now() for the
urgent session id, and the encodeURIComponent oracle of the sanitizer. -/
structure SpeechEnv where
  sendMode : String
  stopAllThrows : Option String
  speakThrows : Option String
  aiResponse : String → Option String
  genMessageId : String
  nowMs : String
  encodeFails : Bool

/-- JS `payload.emotion || 'neutral'` on an optional string field. -/
def jsOrStr (v : Option String) (d : String) : String :=
  match v with
  | some s => if s = "" then d else s
  | none => d

def startsWithAny (l : List Char) (ws : List String) : Bool :=
  ws.any (fun w => w.toList.isPrefixOf l)

/-- preprocessSpeechText (SpeechHandler.ts:405-431). -/
def preprocessSpeechText (p : SpeechPayloadT) : List Char :=
  let text := jsTrim p.text
  match p.type with
  | "alert" =>
    if startsWithAny text ["緊急", "アラート", "警告"] then text
    else "アラート：".toList ++ text
  | "notification" =>
    if startsWithAny text ["お知らせ", "通知", "情報"] then text
    else "お知らせ：".toList ++ text
  | _ => text

/-- createTalkFromPayload (SpeechHandler.ts:251-259). -/
def createTalkFromPayload (encodeFails : Bool) (p : SpeechPayloadT) : Talk :=
  { emotion := jsOrStr p.emotion "neutral"
    message := sanitizeTextForTTS p.text encodeFails }

/-- executeSpeech together with speakWithHighPriority
(SpeechHandler.ts:335-400).  Returns the sink invocations made (in order)
and ok/thrown.  In the high-priority branch the speakCharacter call happens
inside a setTimeout callback: it is still invoked (and recorded) but an
exception there can no longer propagate into executeSpeech, whose own
outcome is determined by stopAll alone. -/
def executeSpeech (env : SpeechEnv) (talk : Talk) (p : SpeechPayloadT) :
    List SinkEvent × Except String Unit :=
  if (jsTrim talk.message).length = 0 then ([], .ok ())
  else if p.priority = "high" then
    match env.stopAllThrows with
    | some e => ([.stopAll], .error e)
    | none =>
      ([.stopAll, .speak ("MQTT-URGENT-" ++ env.nowMs) talk.message talk.emotion],
       .ok ())
  else
    ([.speak env.genMessageId talk.message talk.emotion],
     match env.speakThrows with
     | some e => .error e
     | none => .ok ())

/-- processDirectSend (SpeechHandler.ts:101-111); applyEmotion only logs. -/
def processDirectSend (env : SpeechEnv) (p : SpeechPayloadT) :
    List SinkEvent × Except String Unit :=
  executeSpeech env
    (createTalkFromPayload env.encodeFails { p with text := preprocessSpeechText p }) p

/-- The rewrite prompt built by processAiGenerated. -/
def aiPromptFor (text : List Char) : String :=
  "以下のメッセージを自然で親しみやすい話し方に変換して発話してください：「"
    ++ String.mk text ++ "」"

/-- processAiGenerated (SpeechHandler.ts:116-147): a null/empty generation
falls back to direct send inside the try; any exception from the try body
(including that fallback) is caught once and answered with another direct
send, whose own failure propagates. -/
def processAiGenerated (env : SpeechEnv) (p : SpeechPayloadT) :
    List SinkEvent × Except String Unit :=
  let attempt :=
    match env.aiResponse (aiPromptFor p.text) with
    | some s =>
      if s ≠ "" then
        executeSpeech env
          (createTalkFromPayload env.encodeFails
            { p with text := s.toList, emotion := some (jsOrStr p.emotion "happy") }) p
      else processDirectSend env p
    | none => processDirectSend env p
  match attempt with
  | (tr, .ok _) => (tr, .ok ())
  | (tr, .error _) =>
    let (tr2, r2) := processDirectSend env p
    (tr ++ tr2, r2)

/-- processUserInput (SpeechHandler.ts:152-194). -/
def processUserInput (env : SpeechEnv) (p : SpeechPayloadT) :
    List SinkEvent × Except String Unit :=
  let attempt :=
    match env.aiResponse (String.mk p.text) with
    | some s =>
      if s ≠ "" && 0 < (jsTrim s.toList).length then
        executeSpeech env
          (createTalkFromPayload env.encodeFails
            { p with text := jsTrim s.toList,
                     emotion := some (jsOrStr p.emotion "neutral") }) p
      else
        executeSpeech env
          (createTalkFromPayload env.encodeFails
            { p with text := "すみません、よく理解できませんでした".toList,
                     emotion := some "sad" }) p
    | none =>
      executeSpeech env
        (createTalkFromPayload env.encodeFails
          { p with text := "すみません、よく理解できませんでした".toList,
                   emotion := some "sad" }) p
  match attempt with
  | (tr, .ok _) => (tr, .ok ())
  | (tr, .error _) =>
    let (tr2, r2) := processDirectSend env p
    (tr ++ tr2, r2)

/-- processBySendMode (SpeechHandler.ts:78-96); an unknown mode warns and
uses direct send. -/
def processBySendMode (env : SpeechEnv) (p : SpeechPayloadT) :
    List SinkEvent × Except String Unit :=
  match env.sendMode with
  | "direct_send" => processDirectSend env p
  | "ai_generated" => processAiGenerated env p
  | "user_input" => processUserInput env p
  | _ => processDirectSend env p

/-- handleSpeechPayload (SpeechHandler.ts:39-73): the empty-text guard,
then processBySendMode inside try/catch, converted to a result that always
carries the payload's id. -/
def handleSpeechPayload (env : SpeechEnv) (p : SpeechPayloadT) :
    MqttMessageHandleResult :=
  if p.text = [] ∨ (jsTrim p.text).length = 0 then
    { success := false, error := some "Empty speech text", messageId := some p.id }
  else
    match processBySendMode env p with
    | (_, .ok _) => { success := true, error := none, messageId := some p.id }
    | (_, .error e) => { success := false, error := some e, messageId := some p.id }

/- ### Configuration diagnosis (errorHandler.ts:172-252) -/

inductive MqttProtocolKind where
  | mqtt : MqttProtocolKind
  | websocket : MqttProtocolKind
deriving DecidableEq

structure DiagConfig where
  enabled : Bool
  host : String
  port : Int
  clientId : String
  protocol : MqttProtocolKind
  websocketPath : Option String
  secure : Bool
  username : Option String
  password : Option String

structure ConfigDiagnostic where
  valid : Bool
  issues : List String
  warnings : List String
deriving DecidableEq

/-- Truthiness of an optional string config field. -/
def jsTruthyOptStr : Option String → Bool
  | some s => s ≠ ""
  | none => false

/-- `!s || s.trim() === ''`. -/
def strBlank (s : String) : Bool := s = "" || jsTrim s.toList = []

/-- The `standardPorts` record keyed by port. -/
def standardPortName (port : Int) : Option String :=
  if port = 1883 then some "MQTT (非セキュア)"
  else if port = 8883 then some "MQTT over SSL/TLS"
  else if port = 8080 then some "MQTT over WebSocket"
  else if port = 8084 then some "MQTT over WebSocket (SSL)"
  else none

def hostBlock (c : DiagConfig) : List String × List String :=
  if strBlank c.host then (["ホスト名が設定されていません"], [])
  else if c.host = "localhost" || c.host = "127.0.0.1" then
    ([], ["localhostを使用しています。外部からアクセスできません"])
  else ([], [])

def portBlock (c : DiagConfig) : List String × List String :=
  if c.port ≤ 0 || 65535 < c.port then
    (["ポート番号が無効です（1-65535の範囲で設定してください）"], [])
  else
    match standardPortName c.port with
    | some nm => ([], ["ポート " ++ toString c.port ++ " は " ++ nm ++ " で使用されます"])
    | none => ([], [])

def clientIdBlock (c : DiagConfig) : List String :=
  if strBlank c.clientId then ["クライアントIDが設定されていません"]
  else if 65535 < c.clientId.length then
    ["クライアントIDが長すぎます（65535文字以下にしてください）"]
  else []

def wsBlock (c : DiagConfig) : List String × List String :=
  if c.protocol = .websocket then
    match c.websocketPath with
    | none => (["WebSocketパスが設定されていません"], [])
    | some p =>
      if strBlank p then (["WebSocketパスが設定されていません"], [])
      else if !p.startsWith "/" then
        ([], ["WebSocketパスは \"/\" で始まることが推奨されます"])
      else ([], [])
  else ([], [])

def secureWarnBlock (c : DiagConfig) : List String :=
  (if c.secure && c.port = 1883 then
    ["セキュア接続が有効ですが、ポート1883は通常非セキュアです"] else [])
  ++ (if !c.secure && c.port = 8883 then
    ["ポート8883は通常セキュア接続用ですが、セキュア接続が無効です"] else [])

def authWarnBlock (c : DiagConfig) : List String :=
  (if jsTruthyOptStr c.username && !jsTruthyOptStr c.password then
    ["ユーザー名が設定されていますが、パスワードが設定されていません"] else [])
  ++ (if !jsTruthyOptStr c.username && jsTruthyOptStr c.password then
    ["パスワードが設定されていますが、ユーザー名が設定されていません"] else [])

/-- diagnoseMqttConfig: issues and warnings accumulate in source order;
`valid` is `issues.length === 0`. -/
def diagnoseMqttConfig (c : DiagConfig) : ConfigDiagnostic :=
  let issues := (hostBlock c).1 ++ (portBlock c).1 ++ clientIdBlock c ++ (wsBlock c).1
  let warnings := (hostBlock c).2 ++ (portBlock c).2 ++ (wsBlock c).2
    ++ secureWarnBlock c ++ authWarnBlock c
  { valid := issues.isEmpty, issues := issues, warnings := warnings }

/- ### Connection status (MqttSubscriber.ts:187-199) -/

inductive MqttConnectionStatus where
  | disconnected : MqttConnectionStatus
  | connecting : MqttConnectionStatus
  | connected : MqttConnectionStatus
  | error : MqttConnectionStatus
deriving DecidableEq

/-- setConnectionStatus: given the stored status and the requested one,
returns the new stored status and the emitted connectionStatusChanged
notification (if any). -/
def setConnectionStatus (current status : MqttConnectionStatus) :
    MqttConnectionStatus × Option MqttConnectionStatus :=
  if current ≠ status then (status, some status) else (current, none)

/-- A sequence of setConnectionStatus calls from a given stored status;
returns the notifications subscribers observe, in order. -/
def runSetConnectionStatus :
    MqttConnectionStatus → List MqttConnectionStatus → List MqttConnectionStatus
  | _, [] => []
  | cur, s :: rest =>
    match setConnectionStatus cur s with
    | (next, some ev) => ev :: runSetConnectionStatus next rest
    | (next, none) => runSetConnectionStatus next rest

/- ### Theorems -/

theorem leafIsString_iff (o : Option JLeaf) :
    leafIsString o = true ↔ ∃ s, o = some (.jstr s) := by
  cases o with
  | none => simp [leafIsString]
  | some l => cases l <;> simp [leafIsString]

theorem leafIn_iff (vals : List String) (o : Option JLeaf) :
    leafIn vals o = true ↔ ∃ s, o = some (.jstr s) ∧ s ∈ vals := by
  cases o with
  | none => simp [leafIn]
  | some l => cases l <;> simp [leafIn]

/-- C1 (counterexample): the raw message "hello" is not parseable as JSON
(`JSON.parse` throws, modelled by the `none` parse outcome).  The claim says
decoding accepts it as a degraded SpeechPayload; in fact both receive paths
(MqttBrokerIntegration.handleReceivedMessage and MqttSubscriber.handleMessage)
produce nothing and skip the message. -/
theorem nonJson_skipped_counterexample :
    mqttBrokerDecode "hello" "mqtt-1700000000000" "2025-01-01T00:00:00.000Z" none = none
    ∧ handleMessage none = none :=
  ⟨rfl, rfl⟩

/-- C1 (amended): an inbound raw message whose bytes are not parseable as
JSON is skipped by both receive paths — no payload is built and nothing is
dispatched.  The degraded defaults (generated id, raw string as text,
type = speech, priority = medium, current timestamp) are applied only to
messages that do parse as JSON (other than JSON null), with each missing or
falsy field defaulted individually. -/
theorem nonJson_skipped_degraded_only_for_parsed (raw genId now : String) :
    mqttBrokerDecode raw genId now none = none
    ∧ handleMessage none = none
    ∧ mqttBrokerDecode raw genId now (some (.jobj [])) =
        some ⟨.jstr genId, .jstr raw, .jstr "speech", none, .jstr "medium", .jstr now⟩ :=
  ⟨rfl, rfl, rfl⟩

/-- C2 (counterexample): a record with all required fields present but
`text` equal to the empty string is accepted by the payload validator
(`some true`), and handleMessage dispatches it via the messageReceived
event — the claim says it is rejected with no dispatch. -/
theorem emptyText_accepted_counterexample :
    validateSpeechPayload
      (.jobj [("id", .jstr "a"), ("text", .jstr ""), ("type", .jstr "speech"),
              ("priority", .jstr "medium"), ("timestamp", .jstr "t")]) = some true
    ∧ handleMessage
        (some (.jobj [("id", .jstr "a"), ("text", .jstr ""), ("type", .jstr "speech"),
                      ("priority", .jstr "medium"), ("timestamp", .jstr "t")])) =
      some (.jobj [("id", .jstr "a"), ("text", .jstr ""), ("type", .jstr "speech"),
                   ("priority", .jstr "medium"), ("timestamp", .jstr "t")]) :=
  ⟨rfl, rfl⟩

/-- C2 (amended): the payload validator accepts a decoded object exactly
when `id`, `text` and `timestamp` are strings (the empty string included —
text non-emptiness is NOT checked here; it is enforced later by the
dispatcher, which returns a failed result), `type` is one of
speech/alert/notification and `priority` is one of high/medium/low; hence
any missing or mistyped required field, and any unrecognized type or
priority value, is a rejection. -/
theorem validateSpeechPayload_accepts_iff (fs : List (String × JLeaf)) :
    validateSpeechPayload (.jobj fs) = some true ↔
      ((∃ s, lookupField "id" fs = some (.jstr s))
       ∧ (∃ s, lookupField "text" fs = some (.jstr s))
       ∧ (∃ s, lookupField "type" fs = some (.jstr s)
            ∧ (s = "speech" ∨ s = "alert" ∨ s = "notification"))
       ∧ (∃ s, lookupField "priority" fs = some (.jstr s)
            ∧ (s = "high" ∨ s = "medium" ∨ s = "low"))
       ∧ (∃ s, lookupField "timestamp" fs = some (.jstr s))) := by
  simp [validateSpeechPayload, jfields, typeofIsObject, Bool.and_eq_true,
    leafIsString_iff, leafIn_iff, and_assoc]

/-- C4: with initialDelay = 1000 and maxDelay = 30000 the n-th scheduled
reconnection delay is min(1000·2^(n−1), 30000), i.e. the sequence
1000, 2000, 4000, 8000, 16000, 30000, 30000, … -/
theorem nthReconnectDelay_spec (n : Nat) (hn : 1 ≤ n) :
    nthReconnectDelay 1000 30000 n = min (1000 * 2 ^ (n - 1)) 30000
    ∧ (n ≤ 5 → nthReconnectDelay 1000 30000 n = 1000 * 2 ^ (n - 1))
    ∧ (6 ≤ n → nthReconnectDelay 1000 30000 n = 30000) := by
  have base : nthReconnectDelay 1000 30000 n = min (1000 * 2 ^ (n - 1)) 30000 := by
    simp [nthReconnectDelay, scheduleReconnect]
  refine ⟨base, ?_, ?_⟩
  · intro h5
    rw [base]
    apply min_eq_left
    interval_cases n <;> norm_num
  · intro h6
    rw [base]
    apply min_eq_right
    have h32 : (32 : Nat) ≤ 2 ^ (n - 1) := by
      calc (32 : Nat) = 2 ^ 5 := by norm_num
        _ ≤ 2 ^ (n - 1) := Nat.pow_le_pow_right (by norm_num) (by omega)
    calc (30000 : Nat) ≤ 1000 * 32 := by norm_num
      _ ≤ 1000 * 2 ^ (n - 1) := Nat.mul_le_mul_left 1000 h32

/-- C4 witness: instantiation at n = 2 and n = 6. -/
theorem nthReconnectDelay_spec_witness :
    nthReconnectDelay 1000 30000 2 = 1000 * 2 ^ (2 - 1)
    ∧ nthReconnectDelay 1000 30000 6 = 30000 :=
  ⟨(nthReconnectDelay_spec 2 (by norm_num)).2.1 (by norm_num),
   (nthReconnectDelay_spec 6 (by norm_num)).2.2 (by norm_num)⟩

theorem findBreakFrom_le (text : List Char) (lo : Nat) :
    ∀ i j, findBreakFrom text lo i = some j → j ≤ i := by
  intro i
  induction i with
  | zero =>
    intro j h
    by_cases h1 : 0 < lo
    · simp [findBreakFrom, h1] at h
    · by_cases h2 : isBreakAt text 0 = true
      · simp [findBreakFrom, h1, h2] at h
        omega
      · simp [findBreakFrom, h1, h2] at h
  | succ i ih =>
    intro j h
    by_cases h1 : i + 1 < lo
    · simp [findBreakFrom, h1] at h
    · by_cases h2 : isBreakAt text (i + 1) = true
      · simp [findBreakFrom, h1, h2] at h
        omega
      · simp [findBreakFrom, h1, h2] at h
        exact le_trans (ih j h) (by omega)

theorem findBreakFrom_none (text : List Char) (lo : Nat) :
    ∀ i, (∀ j, lo ≤ j → j ≤ i → isBreakAt text j = false) →
      findBreakFrom text lo i = none := by
  intro i
  induction i with
  | zero =>
    intro h
    by_cases h1 : 0 < lo
    · simp [findBreakFrom, h1]
    · have hb : isBreakAt text 0 = false := h 0 (by omega) (le_refl 0)
      simp [findBreakFrom, h1, hb]
  | succ i ih =>
    intro h
    by_cases h1 : i + 1 < lo
    · simp [findBreakFrom, h1]
    · have hb : isBreakAt text (i + 1) = false := h (i + 1) (by omega) (le_refl _)
      simp [findBreakFrom, h1, hb]
      exact ih (fun j hj1 hj2 => h j hj1 (by omega))

theorem findBreakFrom_hit (text : List Char) (lo : Nat) :
    ∀ i t, lo ≤ t → t ≤ i → isBreakAt text t = true →
      (∀ j, t < j → j ≤ i → isBreakAt text j = false) →
      findBreakFrom text lo i = some t := by
  intro i
  induction i with
  | zero =>
    intro t h1 h2 h3 _
    have ht : t = 0 := by omega
    subst ht
    have hnl : ¬ 0 < lo := by omega
    simp [findBreakFrom, hnl, h3]
  | succ i ih =>
    intro t h1 h2 h3 h4
    have hnl : ¬ (i + 1 < lo) := by omega
    by_cases he : t = i + 1
    · subst he
      simp [findBreakFrom, hnl, h3]
    · have hb : isBreakAt text (i + 1) = false := h4 (i + 1) (by omega) (le_refl _)
      simp [findBreakFrom, hnl, hb]
      exact ih t h1 (by omega) h3 (fun j hj1 hj2 => h4 j hj1 (by omega))

/-- C3: at the 200-character ceiling, a 250-character cleaned input with no
delimiter at indices 140..199 (the backward-search window, 70% of the
ceiling up to the ceiling) is hard-truncated to its first 197 characters
plus the three-character ellipsis marker; the same input with an
ideographic full stop `。` as its 180th character (index 179) and no later
delimiter in the window is truncated to its first 180 characters, ending
with that full stop.  On inputs the cleaning steps leave unchanged,
sanitizeTextForTTS performs exactly this truncation. -/
theorem truncate_at_200_spec (text : List Char) (hlen : text.length = 250) :
    ((∀ k, k < 60 → isBreakAt text (140 + k) = false) →
      truncateTextGracefully text 200 = text.take 197 ++ ['.', '.', '.'])
    ∧ (text[179]? = some '。' →
       (∀ k, k < 20 → isBreakAt text (180 + k) = false) →
        truncateTextGracefully text 200 = text.take 180
        ∧ (text.take 180).getLast? = some '。')
    ∧ (text ≠ [] → jsTrim text = text →
       text.filter (fun c => !isStrippedCtrl c) = text → collapseWs text = text →
        sanitizeTextForTTS text false = truncateTextGracefully text 200) := by
  have hgt : ¬ (text.length ≤ 200) := by omega
  refine ⟨?_, ?_, ?_⟩
  · intro hno
    have hnone : findBreakFrom text ((7 * 200 + 9) / 10) (200 - 1) = none := by
      apply findBreakFrom_none
      intro j hj1 hj2
      have h60 : j - 140 < 60 := by omega
      have := hno (j - 140) h60
      rwa [Nat.add_sub_cancel' (by omega : 140 ≤ j)] at this
    simp [truncateTextGracefully, hgt, hnone]
  · intro hp hno
    have hbreak : isBreakAt text 179 = true := by
      simp [isBreakAt, hp, breakPoints]
    have hsome : findBreakFrom text ((7 * 200 + 9) / 10) (200 - 1) = some 179 := by
      apply findBreakFrom_hit
      · omega
      · omega
      · exact hbreak
      · intro j hj1 hj2
        have h20 : j - 180 < 20 := by omega
        have := hno (j - 180) h20
        rwa [Nat.add_sub_cancel' (by omega : 180 ≤ j)] at this
    refine ⟨by simp [truncateTextGracefully, hgt, hsome], ?_⟩
    have hlt : (text.take 180).length = 180 := by
      rw [List.length_take]
      omega
    rw [List.getLast?_eq_getElem? _, hlt, List.getElem?_take]
    simpa using hp
  · intro hne h1 h2 h3
    simp [sanitizeTextForTTS, hne, h1, h2, h3, hlen]

set_option maxRecDepth 100000 in
/-- C3 witness: a 250-character input of plain `a`s (no delimiter anywhere),
and the same with index 179 replaced by `。`. -/
theorem truncate_at_200_spec_witness :
    truncateTextGracefully (List.replicate 250 'a') 200 =
      (List.replicate 250 'a').take 197 ++ ['.', '.', '.']
    ∧ truncateTextGracefully (List.replicate 179 'a' ++ '。' :: List.replicate 70 'b') 200 =
      (List.replicate 179 'a' ++ '。' :: List.replicate 70 'b').take 180 := by
  constructor
  · exact (truncate_at_200_spec _ (by simp)).1 (by decide)
  · exact ((truncate_at_200_spec _ (by simp)).2.1 (by decide) (by decide)).1

theorem truncate_200_length_le (text : List Char) (h : 200 < text.length) :
    (truncateTextGracefully text 200).length ≤ 200 := by
  have hn : ¬ (text.length ≤ 200) := by omega
  cases hfb : findBreakFrom text ((7 * 200 + 9) / 10) (200 - 1) with
  | none =>
    simp [truncateTextGracefully, hn, hfb, List.length_take]
  | some j =>
    have hj : j ≤ 200 - 1 := findBreakFrom_le _ _ _ _ hfb
    simp [truncateTextGracefully, hn, hfb, List.length_take]
    omega

/-- C9: the sanitizer's output never exceeds the 200-character VOICEVOX
ceiling, whatever the input and whether or not the final
encodeURIComponent check fails. -/
theorem sanitizeTextForTTS_length_le (text : List Char) (encodeFails : Bool) :
    (sanitizeTextForTTS text encodeFails).length ≤ 200 := by
  by_cases hne : text = []
  · simp [sanitizeTextForTTS, hne]
  · cases encodeFails with
    | true => simp [sanitizeTextForTTS, hne, ttsFallback]
    | false =>
      simp only [sanitizeTextForTTS, hne, if_false, Bool.false_eq_true, if_neg,
        not_false_eq_true]
      set s3 := collapseWs ((jsTrim text).filter (fun c => !isStrippedCtrl c)) with hs3
      by_cases hlong : 200 < s3.length
      · simp [hlong]
        exact truncate_200_length_le s3 hlong
      · simp [hlong]
        omega

theorem eatLit_append (lit : List Char) :
    ∀ l r res, eatLit lit l = some res → eatLit lit (l ++ r) = some (res ++ r) := by
  induction lit with
  | nil =>
    intro l r res h
    simp [eatLit] at h ⊢
    exact h
  | cons c cs ih =>
    intro l r res h
    cases l with
    | nil => simp [eatLit] at h
    | cons x xs =>
      by_cases hx : x = c
      · simp [eatLit, hx] at h ⊢
        exact ih xs r res h
      · simp [eatLit, hx] at h

theorem eatCount_append (p : Char → Bool) :
    ∀ n l r res, eatCount p n l = some res → eatCount p n (l ++ r) = some (res ++ r) := by
  intro n
  induction n with
  | zero =>
    intro l r res h
    simp [eatCount] at h ⊢
    exact h
  | succ n ih =>
    intro l r res h
    cases l with
    | nil => simp [eatCount] at h
    | cons x xs =>
      by_cases hx : p x = true
      · simp [eatCount, hx] at h ⊢
        exact ih xs r res h
      · simp [eatCount, hx] at h

theorem eatLit_self (lit : List Char) : ∀ r, eatLit lit (lit ++ r) = some r := by
  induction lit with
  | nil => intro r; rfl
  | cons c cs ih =>
    intro r
    simp [eatLit]
    exact ih r

theorem matchUuidTail_append (l r res : List Char) (h : matchUuidTail l = some res) :
    matchUuidTail (l ++ r) = some (res ++ r) := by
  simp only [matchUuidTail, Option.bind_eq_some] at h ⊢
  obtain ⟨a1, h1, a2, h2, a3, h3, a4, h4, a5, h5, a6, h6, a7, h7, a8, h8, a9, h9, h10⟩ := h
  exact ⟨a1 ++ r, eatCount_append _ _ _ _ _ h1,
         a2 ++ r, eatLit_append _ _ _ _ h2,
         a3 ++ r, eatCount_append _ _ _ _ _ h3,
         a4 ++ r, eatLit_append _ _ _ _ h4,
         a5 ++ r, eatCount_append _ _ _ _ _ h5,
         a6 ++ r, eatLit_append _ _ _ _ h6,
         a7 ++ r, eatCount_append _ _ _ _ _ h7,
         a8 ++ r, eatCount_append _ _ _ _ _ h8,
         a9 ++ r, eatLit_append _ _ _ _ h9,
         eatCount_append _ _ _ _ _ h10⟩

theorem matchCore_gen (uuid ts : List Char) (hu : uuidOk uuid) (ht : tsOk ts) :
    matchCore (aituberPre ++ (uuid ++ '-' :: ts)) = some [] := by
  have h1 : eatLit aituberPre (aituberPre ++ (uuid ++ '-' :: ts)) =
      some (uuid ++ '-' :: ts) := eatLit_self _ _
  have h2 : matchUuidTail (uuid ++ '-' :: ts) = some ('-' :: ts) := by
    simpa using matchUuidTail_append uuid ('-' :: ts) [] hu
  have h3 : eatLit ['-'] ('-' :: ts) = some ts := by simp [eatLit]
  simp [matchCore, h1, h2, h3, ht]

theorem matchCore_conv (uuid ts legacy : List Char) (hu : uuidOk uuid) (ht : tsOk ts) :
    matchCore (aituberPre ++ (uuid ++ '-' :: (ts ++ '-' :: legacy))) =
      some ('-' :: legacy) := by
  have h1 : eatLit aituberPre (aituberPre ++ (uuid ++ '-' :: (ts ++ '-' :: legacy))) =
      some (uuid ++ '-' :: (ts ++ '-' :: legacy)) := eatLit_self _ _
  have h2 : matchUuidTail (uuid ++ '-' :: (ts ++ '-' :: legacy)) =
      some ('-' :: (ts ++ '-' :: legacy)) := by
    simpa using matchUuidTail_append uuid ('-' :: (ts ++ '-' :: legacy)) [] hu
  have h3 : eatLit ['-'] ('-' :: (ts ++ '-' :: legacy)) = some (ts ++ '-' :: legacy) := by
    simp [eatLit]
  have h4 : eatCount isDigitC 13 (ts ++ '-' :: legacy) = some ('-' :: legacy) := by
    simpa using eatCount_append isDigitC 13 ts ('-' :: legacy) [] ht
  simp [matchCore, h1, h2, h3, h4]

/-- C5 (amended): migration is the identity on canonical ids; an empty input
yields the freshly generated id, which is canonical whenever the ambient
uuid/timestamp are well-formed; a non-empty non-canonical input yields
`aituber-<uuid>-<ts>-<input>` — the original value as trailing segment —
and that result is canonical whenever the input additionally contains no
line-terminator character (the legacy pattern's `.+` cannot match one). -/
theorem convertLegacyClientId_spec (uuid ts legacy : List Char) :
    (isAituberClientId legacy = true → convertLegacyClientId uuid ts legacy = legacy)
    ∧ (legacy = [] →
        convertLegacyClientId uuid ts legacy = generateAituberClientId uuid ts)
    ∧ (uuidOk uuid → tsOk ts →
        isAituberClientId (generateAituberClientId uuid ts) = true)
    ∧ (legacy ≠ [] → isAituberClientId legacy = false →
        convertLegacyClientId uuid ts legacy =
          aituberPre ++ (uuid ++ '-' :: (ts ++ '-' :: legacy))
        ∧ (uuidOk uuid → tsOk ts → legacy.all isRegexDot = true →
            isAituberClientId (convertLegacyClientId uuid ts legacy) = true)) := by
  refine ⟨?_, ?_, ?_, ?_⟩
  · intro h
    simp [convertLegacyClientId, h]
  · intro h
    subst h
    simp [convertLegacyClientId, isAituberClientId]
  · intro hu ht
    have hgen : generateAituberClientId uuid ts = aituberPre ++ (uuid ++ '-' :: ts) := by
      simp [generateAituberClientId]
    rw [hgen]
    have hne2 : aituberPre ++ (uuid ++ '-' :: ts) ≠ [] := by simp [aituberPre]
    simp only [isAituberClientId]
    rw [if_neg hne2, matchCore_gen uuid ts hu ht]
  · intro hne hnc
    have hform : convertLegacyClientId uuid ts legacy =
        aituberPre ++ (uuid ++ '-' :: (ts ++ '-' :: legacy)) := by
      simp [convertLegacyClientId, hnc, hne]
    refine ⟨hform, ?_⟩
    intro hu ht hdot
    rw [hform]
    have hne2 : aituberPre ++ (uuid ++ '-' :: (ts ++ '-' :: legacy)) ≠ [] := by
      simp [aituberPre]
    simp only [isAituberClientId]
    rw [if_neg hne2, matchCore_conv uuid ts legacy hu ht]
    simp [hne, hdot]

set_option maxRecDepth 100000 in
/-- C5 witness: a concrete uuid, 13-digit timestamp and the legacy id
`legacy01`. -/
theorem convertLegacyClientId_spec_witness :
    convertLegacyClientId "12345678-1234-4abc-8abc-123456789abc".toList
        "1234567890123".toList "legacy01".toList =
      aituberPre ++ ("12345678-1234-4abc-8abc-123456789abc".toList ++
        '-' :: ("1234567890123".toList ++ '-' :: "legacy01".toList))
    ∧ isAituberClientId
        (convertLegacyClientId "12345678-1234-4abc-8abc-123456789abc".toList
          "1234567890123".toList "legacy01".toList) = true := by
  have h := (convertLegacyClientId_spec "12345678-1234-4abc-8abc-123456789abc".toList
    "1234567890123".toList "legacy01".toList).2.2.2 (by decide) (by decide)
  exact ⟨h.1, h.2 (by decide) (by decide) (by decide)⟩

set_option maxRecDepth 100000 in
/-- C5 (counterexample): the single line-feed character is a non-empty,
non-canonical legacy id, yet its migration result fails the canonical check
(the legacy pattern's `.+` cannot match a line terminator), contradicting
the claim that every non-empty non-canonical input maps to a canonical
identifier. -/
theorem convertLegacy_newline_counterexample :
    (['\n'] : List Char) ≠ []
    ∧ isAituberClientId ['\n'] = false
    ∧ isAituberClientId
        (convertLegacyClientId "12345678-1234-4abc-8abc-123456789abc".toList
          "1234567890123".toList ['\n']) = false :=
  ⟨by simp, by decide, by decide⟩

/-- C6: dispatch always yields a result carrying the payload's id; when the
empty-text guard passes, a send-mode pipeline that throws is caught and
converted into a failed result with that error and the payload's id, and a
pipeline that completes yields a successful result — in particular no
exception from mode branching, sanitization or priority handling ever
propagates (handleSpeechPayload is a total function into results, for every
behavior of the send mode, sink and chat collaborator in the environment). -/
theorem handleSpeechPayload_total (env : SpeechEnv) (p : SpeechPayloadT) :
    (handleSpeechPayload env p).messageId = some p.id
    ∧ (∀ e, ¬(p.text = [] ∨ (jsTrim p.text).length = 0) →
        (processBySendMode env p).2 = .error e →
        handleSpeechPayload env p =
          { success := false, error := some e, messageId := some p.id })
    ∧ (¬(p.text = [] ∨ (jsTrim p.text).length = 0) →
        (processBySendMode env p).2 = .ok () →
        handleSpeechPayload env p =
          { success := true, error := none, messageId := some p.id }) := by
  refine ⟨?_, ?_, ?_⟩
  · by_cases h : p.text = [] ∨ (jsTrim p.text).length = 0
    · have h' : p.text = [] ∨ jsTrim p.text = [] := by simpa using h
      simp [handleSpeechPayload, h']
    · have h' : ¬(p.text = [] ∨ jsTrim p.text = []) := by simpa using h
      rcases hpb : processBySendMode env p with ⟨tr, r⟩
      cases r <;> simp [handleSpeechPayload, h', hpb]
  · intro e hne herr
    have h' : ¬(p.text = [] ∨ jsTrim p.text = []) := by simpa using hne
    rcases hpb : processBySendMode env p with ⟨tr, r⟩
    rw [hpb] at herr
    simp at herr
    subst herr
    simp [handleSpeechPayload, h', hpb]
  · intro hne hok
    have h' : ¬(p.text = [] ∨ jsTrim p.text = []) := by simpa using hne
    rcases hpb : processBySendMode env p with ⟨tr, r⟩
    rw [hpb] at hok
    simp at hok
    subst hok
    simp [handleSpeechPayload, h', hpb]

/-- C6 witness: direct send with a speech sink that throws "boom". -/
theorem handleSpeechPayload_total_witness :
    handleSpeechPayload
      ⟨"direct_send", none, some "boom", fun _ => none, "mid", "123", false⟩
      ⟨"m1", "hello".toList, "speech", "medium", none⟩ =
    { success := false, error := some "boom", messageId := some "m1" } :=
  (handleSpeechPayload_total
      ⟨"direct_send", none, some "boom", fun _ => none, "mid", "123", false⟩
      ⟨"m1", "hello".toList, "speech", "medium", none⟩).2.1 "boom"
    (by decide) rfl

/-- C7: when a payload reaches speech execution (non-empty sanitized text),
a high-priority payload first invokes stopAll on the speech queue — the
head of the invocation trace — and any speak invocation comes strictly
after it, under a session id with the distinguishable `MQTT-URGENT-`
marker; a non-high payload never triggers stopAll and is handed to the
ordinary speak path under the ordinary generated session id. -/
theorem executeSpeech_priority_spec (env : SpeechEnv) (talk : Talk)
    (p : SpeechPayloadT) (hmsg : (jsTrim talk.message).length ≠ 0) :
    (p.priority = "high" →
      ∃ rest, (executeSpeech env talk p).1 = SinkEvent.stopAll :: rest
        ∧ ∀ sid m em, SinkEvent.speak sid m em ∈ rest →
            ∃ suff, sid = "MQTT-URGENT-" ++ suff)
    ∧ (p.priority ≠ "high" →
        SinkEvent.stopAll ∉ (executeSpeech env talk p).1
        ∧ (executeSpeech env talk p).1 =
            [SinkEvent.speak env.genMessageId talk.message talk.emotion]) := by
  constructor
  · intro hh
    cases hst : env.stopAllThrows with
    | some e =>
      refine ⟨[], ?_, ?_⟩
      · simp [executeSpeech, hmsg, hh, hst]
      · intro sid m em hmem
        simp at hmem
    | none =>
      refine ⟨[SinkEvent.speak ("MQTT-URGENT-" ++ env.nowMs) talk.message talk.emotion],
        ?_, ?_⟩
      · simp [executeSpeech, hmsg, hh, hst]
      · intro sid m em hmem
        simp at hmem
        exact ⟨env.nowMs, hmem.1⟩
  · intro hh
    constructor
    · simp [executeSpeech, hmsg, hh]
    · simp [executeSpeech, hmsg, hh]

/-- C7 witness: a high-priority and a medium-priority payload against a
non-throwing sink. -/
theorem executeSpeech_priority_spec_witness :
    (∃ rest,
      (executeSpeech ⟨"direct_send", none, none, fun _ => none, "mid", "123", false⟩
        ⟨"neutral", "hi".toList⟩ ⟨"m1", "hi".toList, "speech", "high", none⟩).1 =
        SinkEvent.stopAll :: rest
      ∧ ∀ sid m em, SinkEvent.speak sid m em ∈ rest →
          ∃ suff, sid = "MQTT-URGENT-" ++ suff)
    ∧ SinkEvent.stopAll ∉
        (executeSpeech ⟨"direct_send", none, none, fun _ => none, "mid", "123", false⟩
          ⟨"neutral", "hi".toList⟩ ⟨"m1", "hi".toList, "speech", "medium", none⟩).1 := by
  refine ⟨(executeSpeech_priority_spec _ _ _ (by decide)).1 rfl,
    ((executeSpeech_priority_spec _ _ _ (by decide)).2 (by decide)).1⟩

/-- C8: validation is valid exactly when the issue list is empty (warnings
are a separate list and never feed the flag), and each hard failure —
blank host, port outside [1, 65535], blank client id, websocket transport
without a websocket path — contributes its issue string to the list. -/
theorem diagnoseMqttConfig_spec (c : DiagConfig) :
    ((diagnoseMqttConfig c).valid = true ↔ (diagnoseMqttConfig c).issues = [])
    ∧ (strBlank c.host = true →
        "ホスト名が設定されていません" ∈ (diagnoseMqttConfig c).issues)
    ∧ (c.port ≤ 0 ∨ 65535 < c.port →
        "ポート番号が無効です（1-65535の範囲で設定してください）" ∈ (diagnoseMqttConfig c).issues)
    ∧ (strBlank c.clientId = true →
        "クライアントIDが設定されていません" ∈ (diagnoseMqttConfig c).issues)
    ∧ (c.protocol = .websocket →
        (c.websocketPath = none ∨ ∃ pth, c.websocketPath = some pth ∧ strBlank pth = true) →
        "WebSocketパスが設定されていません" ∈ (diagnoseMqttConfig c).issues) := by
  refine ⟨?_, ?_, ?_, ?_, ?_⟩
  · simp [diagnoseMqttConfig, List.isEmpty_iff]
  · intro h
    have hh : (hostBlock c).1 = ["ホスト名が設定されていません"] := by
      simp [hostBlock, h]
    simp [diagnoseMqttConfig, hh]
  · intro h
    have hp : (portBlock c).1 = ["ポート番号が無効です（1-65535の範囲で設定してください）"] := by
      rcases h with h | h <;> simp [portBlock, h]
    simp [diagnoseMqttConfig, hp]
  · intro h
    have hc : clientIdBlock c = ["クライアントIDが設定されていません"] := by
      simp [clientIdBlock, h]
    simp [diagnoseMqttConfig, hc]
  · intro hproto hpath
    have hw : (wsBlock c).1 = ["WebSocketパスが設定されていません"] := by
      rcases hpath with hnone | ⟨pth, hsome, hblank⟩
      · simp [wsBlock, hproto, hnone]
      · simp [wsBlock, hproto, hsome, hblank]
    simp [diagnoseMqttConfig, hw]

/-- C8 witness: a configuration failing every hard check. -/
theorem diagnoseMqttConfig_spec_witness :
    "ホスト名が設定されていません" ∈
      (diagnoseMqttConfig ⟨true, "", 0, "", .websocket, none, false, none, none⟩).issues
    ∧ "ポート番号が無効です（1-65535の範囲で設定してください）" ∈
      (diagnoseMqttConfig ⟨true, "", 0, "", .websocket, none, false, none, none⟩).issues
    ∧ "クライアントIDが設定されていません" ∈
      (diagnoseMqttConfig ⟨true, "", 0, "", .websocket, none, false, none, none⟩).issues
    ∧ "WebSocketパスが設定されていません" ∈
      (diagnoseMqttConfig ⟨true, "", 0, "", .websocket, none, false, none, none⟩).issues := by
  have h := diagnoseMqttConfig_spec ⟨true, "", 0, "", .websocket, none, false, none, none⟩
  exact ⟨h.2.1 (by decide), h.2.2.1 (Or.inl (by norm_num)),
    h.2.2.2.1 (by decide), h.2.2.2.2 rfl (Or.inl rfl)⟩

theorem runSet_head_ne (l : List MqttConnectionStatus) :
    ∀ cur h, (runSetConnectionStatus cur l).head? = some h → h ≠ cur := by
  induction l with
  | nil =>
    intro cur h hh
    simp [runSetConnectionStatus] at hh
  | cons s rest ih =>
    intro cur h hh
    by_cases he : cur = s
    · subst he
      simp [runSetConnectionStatus, setConnectionStatus] at hh
      exact ih cur h hh
    · simp [runSetConnectionStatus, setConnectionStatus, he] at hh
      rw [← hh]
      exact fun hc => he hc.symm

theorem runSet_chain (l : List MqttConnectionStatus) :
    ∀ cur, List.Chain' (· ≠ ·) (runSetConnectionStatus cur l) := by
  induction l with
  | nil =>
    intro cur
    simp [runSetConnectionStatus]
  | cons s rest ih =>
    intro cur
    by_cases he : cur = s
    · subst he
      simp [runSetConnectionStatus, setConnectionStatus]
      exact ih cur
    · simp [runSetConnectionStatus, setConnectionStatus, he]
      rw [List.chain'_cons']
      refine ⟨?_, ih s⟩
      intro b hb
      exact Ne.symm (runSet_head_ne rest s b hb)

/-- C10: the connection-status setter emits a notification exactly when the
requested status differs from the stored one; setting the current status
again changes nothing and emits nothing; consequently, over any call
sequence, no two consecutive emitted notifications carry equal values. -/
theorem setConnectionStatus_spec (cur st : MqttConnectionStatus)
    (l : List MqttConnectionStatus) :
    ((setConnectionStatus cur st).2.isSome = true ↔ st ≠ cur)
    ∧ (st = cur → setConnectionStatus cur st = (cur, none))
    ∧ (st ≠ cur → setConnectionStatus cur st = (st, some st))
    ∧ List.Chain' (· ≠ ·) (runSetConnectionStatus cur l) := by
  refine ⟨?_, ?_, ?_, runSet_chain l cur⟩
  · by_cases h : cur = st
    · subst h
      simp [setConnectionStatus]
    · simp [setConnectionStatus, h]
      exact fun hc => h hc.symm
  · intro h
    subst h
    simp [setConnectionStatus]
  · intro h
    have hc : cur ≠ st := fun hcc => h hcc.symm
    simp [setConnectionStatus, hc]

/-- C10 witness: repeated `connecting` from `disconnected` emits once. -/
theorem setConnectionStatus_spec_witness :
    setConnectionStatus .disconnected .disconnected = (.disconnected, none)
    ∧ setConnectionStatus .disconnected .connecting = (.connecting, some .connecting)
    ∧ List.Chain' (· ≠ ·)
        (runSetConnectionStatus .disconnected [.connecting, .connecting, .connected]) :=
  ⟨(setConnectionStatus_spec .disconnected .disconnected []).2.1 rfl,
   (setConnectionStatus_spec .disconnected .connecting []).2.2.1 (by decide),
   (setConnectionStatus_spec .disconnected .disconnected
      [.connecting, .connecting, .connected]).2.2.2⟩
